import Mathlib

/-!
Shallow embedding of the sand simulation core of `rust-sand-sim`
(`src/main.rs`: `SandGrid` and its methods `new`, `simulate`,
`coord_to_index`, `spawn_sand_at`, `is_pixel_solid`, `swap_cell`;
`src/primitives.rs`: `CpuTexture::set_pixel` / `get_pixel`;
`src/utils.rs`: `new_texture`).

Modelling conventions:
* `f32` values are modelled as exact rationals (`ℚ`); the float literals
  `9.81`, `1.0`, `10.0`, `255.0` of the source become the corresponding
  rationals.  `f32::round` (round half away from zero) is `rustRound`.
* Rust's saturating float-to-integer casts (`as u8`, `as usize`, applied
  to a finite value) are modelled by `satU8ofInt` / `satUsize` (after a
  `round`) and `truncU8` (plain `as u8`, which truncates toward zero).
* Every indexing operation that can panic in Rust (slice indexing,
  indexed assignment) is modelled with checked access, so the fallible
  operations return `Option`: `none` models a panic.  Debug-profile
  checked arithmetic is assumed for the single fallible `usize`
  subtraction `x - 1` (`checkedPred`); `usize` additions, which can only
  overflow for quantities near `2^64`, are modelled as exact `ℕ`
  additions.
* The `Vec`s `meta`, `velocity` and the `CpuTexture` byte buffer `color`
  (row-major RGBA, 4 bytes per cell) are `List`s.
-/

namespace SandSim

attribute [local semireducible] Rat.add Rat.mul Rat.sub Rat.inv Rat.ofScientific

/-- `f32::round`: round half away from zero. -/
def rustRound (q : ℚ) : ℤ := if q < 0 then -⌊-q + 1/2⌋ else ⌊q + 1/2⌋

/-- Rust `as u8` applied to an integer-valued finite float: saturate into `[0, 255]`. -/
def satU8ofInt (z : ℤ) : ℕ := if z < 0 then 0 else min 255 z.toNat

/-- Rust `as u8` applied to a finite float: truncate toward zero, saturating. -/
def truncU8 (q : ℚ) : ℕ := if q < 0 then 0 else min 255 ⌊q⌋.toNat

/-- Rust `as usize` applied to an integer-valued finite float: saturate into `[0, 2^64-1]`. -/
def satUsize (z : ℤ) : ℕ := if z < 0 then 0 else min (2 ^ 64 - 1) z.toNat

/-- Debug-profile `usize` subtraction `x - 1`: panics (here `none`) on underflow. -/
def checkedPred (x : ℕ) : Option ℕ := if x = 0 then none else some (x - 1)

/-- `SandGrid::is_pixel_solid`. -/
def is_pixel_solid (info : ℕ) : Bool := info != 0

/-- `utils::new_texture`: background gradient, `r = (x/width * 255) as u8`,
`g = (y/height * 255).round() as u8`, `b = a = 255`, over a buffer
initialised to `255`. -/
def new_texture (width height : ℕ) : List ℕ :=
  (List.range height).foldl (fun (res : List ℕ) (y : ℕ) =>
    let g := satU8ofInt (rustRound ((y : ℚ) / (height : ℚ) * 255))
    (List.range width).foldl (fun (res : List ℕ) (x : ℕ) =>
      let i : ℕ := (y * width + x) * 4
      let r := truncU8 ((x : ℚ) / (width : ℚ) * 255)
      (((res.set i r).set (i + 1) g).set (i + 2) 255).set (i + 3) 255) res)
    (List.replicate (width * height * 4) 255)

/-- The state of `SandGrid` (with the `CpuTexture` color buffer inlined as
its byte list; the texture's dimensions equal the grid's). -/
structure SandGrid where
  width : ℕ
  height : ℕ
  meta : List ℕ
  color : List ℕ
  velocity : List ℚ
deriving DecidableEq, Repr, Inhabited

namespace SandGrid

/-- `SandGrid::new`. -/
def new (width height : ℕ) : SandGrid :=
  { width := width
    height := height
    meta := List.replicate (width * height) 0
    color := new_texture width height
    velocity := List.replicate (width * height) 0 }

/-- `SandGrid::coord_to_index`. -/
def coord_to_index (g : SandGrid) (x y : ℕ) : ℕ := y * g.width + x

/-- `CpuTexture::set_pixel` on the grid's color buffer (indexed assignment
of the 4 bytes at `(y*width+x)*4`; panics when out of bounds). -/
def set_pixel (g : SandGrid) (x y r gr b a : ℕ) : Option SandGrid :=
  let i := (y * g.width + x) * 4
  if i + 3 < g.color.length then
    some { g with color := (((g.color.set i r).set (i + 1) gr).set (i + 2) b).set (i + 3) a }
  else none

/-- `CpuTexture::get_pixel` (reads the 4 bytes at `(y*width+x)*4`). -/
def get_pixel (g : SandGrid) (x y : ℕ) : Option (ℕ × ℕ × ℕ × ℕ) := do
  let i := (y * g.width + x) * 4
  let r ← g.color[i]?
  let gr ← g.color[i + 1]?
  let b ← g.color[i + 2]?
  let a ← g.color[i + 3]?
  some (r, gr, b, a)

/-- The indexed assignment `self.velocity[i] = v`. -/
def setVelocity (g : SandGrid) (i : ℕ) (v : ℚ) : Option SandGrid :=
  if i < g.velocity.length then some { g with velocity := g.velocity.set i v } else none

/-- `SandGrid::spawn_sand_at`: `meta[i] = 1; velocity[i] = 1.0;
set_pixel(x, y, 0, 255, 255, 255)` with `i = y*width + x`, no bounds check
beyond the slice accesses themselves. -/
def spawn_sand_at (g : SandGrid) (x y : ℕ) : Option SandGrid := do
  let i := y * g.width + x
  if i < g.meta.length then
    let g1 : SandGrid := { g with meta := g.meta.set i 1 }
    let g2 ← g1.setVelocity i 1
    g2.set_pixel x y 0 255 255 255
  else none

/-- `SandGrid::swap_cell`: swaps `meta`, then the two color pixels, then
`velocity`, between `(x,y)` and `(x1,y1)`. -/
def swap_cell (g : SandGrid) (x y x1 y1 : ℕ) : Option SandGrid := do
  let i := y * g.width + x
  let i1 := y1 * g.width + x1
  let t ← g.meta[i1]?
  let mi ← g.meta[i]?
  let g1 : SandGrid := { g with meta := (g.meta.set i1 mi).set i t }
  let (r, gr, b, a) ← g1.get_pixel x y
  let (r1, gr1, b1, a1) ← g1.get_pixel x1 y1
  let g2 ← g1.set_pixel x1 y1 r gr b a
  let g3 ← g2.set_pixel x y r1 gr1 b1 a1
  let v ← g3.velocity[i1]?
  let vi ← g3.velocity[i]?
  some { g3 with velocity := (g3.velocity.set i1 vi).set i v }

/-- The gravitational constant `ACCEL = 9.81` of `SandGrid::simulate`. -/
def ACCEL : ℚ := 981 / 100

/-- The red channel written by `simulate`:
`(v_next/10.0 * 255.0).round() as u8`. -/
def red_of_velocity (v : ℚ) : ℕ := satU8ofInt (rustRound (v / 10 * 255))

/-- The collision scan of `simulate`
(`for y_bellow in y+1..y_target+1 { ... }`): starting from
`y_target_collision = ytc` at row `yb`, with `fuel` iterations left,
stop at the floor row or at the first solid cell, otherwise advance
`y_target_collision` to the inspected row. -/
def find_collision (g : SandGrid) (x : ℕ) : ℕ → ℕ → ℕ → Option ℕ
  | ytc, _, 0 => some ytc
  | ytc, yb, fuel + 1 =>
    if yb = g.height - 1 then some ytc
    else match g.meta[yb * g.width + x]? with
      | none => none
      | some m =>
        if is_pixel_solid m then some ytc
        else g.find_collision x yb (yb + 1) fuel

/-- The body of the two nested loops of `SandGrid::simulate` for the cell
`(x, y)`.  Besides the updated grid it records the list of `swap_cell`
invocations it performed, as pairs of flat indices (source, destination). -/
def stepCell (g : SandGrid) (x y : ℕ) (dt : ℚ) : Option (SandGrid × List (ℕ × ℕ)) := do
  let iCur := y * g.width + x
  let m ← g.meta[iCur]?
  if ! is_pixel_solid m then
    return (g, [])
  else if y = g.height - 1 then
    return (g, [])
  else
    let v ← g.velocity[iCur]?
    let vNext := v + ACCEL * dt
    let gv ← g.setVelocity iCur vNext
    let gc ← gv.set_pixel x y (red_of_velocity vNext) 0 0 255
    if vNext < 1 then
      return (gc, [])
    else
      let yTarget := min (y + satUsize (rustRound vNext)) (gc.height - 1)
      let ytc ← gc.find_collision x (y + 1) (y + 1) (yTarget - y)
      let iBellow := ytc * gc.width + x
      let mB ← gc.meta[iBellow]?
      if ! is_pixel_solid mB then
        let g2 ← gc.swap_cell x y x ytc
        return (g2, [(iCur, iBellow)])
      else
        let xr := x + 1
        let xl ← checkedPred x
        let mL ← gc.meta[ytc * gc.width + xl]?
        let mR ← gc.meta[ytc * gc.width + xr]?
        if ! is_pixel_solid mL then
          let g2 ← gc.swap_cell x y xl ytc
          return (g2, [(iCur, ytc * gc.width + xl)])
        else if ! is_pixel_solid mR then
          let g2 ← gc.swap_cell x y xr ytc
          return (g2, [(iCur, ytc * gc.width + xr)])
        else
          return (gc, [])

end SandGrid

/-- The traversal order of `simulate`: `y` from `height-1` down to `0`
(outer), `x` from `0` to `width-1` (inner), as `(y, x)` pairs. -/
def traversal (width height : ℕ) : List (ℕ × ℕ) :=
  ((List.range height).reverse).product (List.range width)

/-- Runs `stepCell` over a list of `(y, x)` positions, accumulating the
performed swaps; `none` models a panic during the pass. -/
def runCells (dt : ℚ) : List (ℕ × ℕ) → SandGrid × List (ℕ × ℕ) →
    Option (SandGrid × List (ℕ × ℕ))
  | [], acc => some acc
  | p :: ps, acc =>
    match acc.1.stepCell p.2 p.1 dt with
    | none => none
    | some (g', s) => runCells dt ps (g', acc.2 ++ s)

namespace SandGrid

/-- `SandGrid::simulate`, instrumented with the list of performed swaps. -/
def simulateAux (g : SandGrid) (dt : ℚ) : Option (SandGrid × List (ℕ × ℕ)) :=
  runCells dt (traversal g.width g.height) (g, [])

/-- `SandGrid::simulate` (the `advance(dt)` entry point). -/
def simulate (g : SandGrid) (dt : ℚ) : Option SandGrid :=
  (g.simulateAux dt).map Prod.fst

/-- `n` successive `simulate` calls with `dt = 1.0`. -/
def advanceN (g : SandGrid) : ℕ → Option SandGrid
  | 0 => some g
  | n + 1 => (g.simulate 1).bind (fun g' => g'.advanceN n)

/-- Well-formedness: the three parallel arrays have the lengths
`SandGrid::new` establishes. -/
def WF (g : SandGrid) : Prop :=
  g.meta.length = g.width * g.height ∧
  g.velocity.length = g.width * g.height ∧
  g.color.length = g.width * g.height * 4

instance (g : SandGrid) : Decidable g.WF := by unfold WF; infer_instance

/-- Number of occupied cells. -/
def countOcc (l : List ℕ) : ℕ := l.countP is_pixel_solid

end SandGrid

/-! ### List helpers -/

theorem list_set_self {α : Type _} {l : List α} {i : ℕ} {a : α} (h : l[i]? = some a) :
    l.set i a = l := by
  induction l generalizing i with
  | nil => simp at h
  | cons b t ih =>
    cases i with
    | zero => simp_all
    | succ n =>
      simp only [List.getElem?_cons_succ] at h
      simpa using ih h

theorem countP_set_sum {α : Type _} (p : α → Bool) {l : List α} {i : ℕ} {b : α} (a : α)
    (h : l[i]? = some b) :
    (l.set i a).countP p + (if p b then 1 else 0) = l.countP p + (if p a then 1 else 0) := by
  induction l generalizing i with
  | nil => simp at h
  | cons c t ih =>
    cases i with
    | zero =>
      obtain rfl : c = b := by simpa using h
      by_cases hpa : p a <;> by_cases hpc : p c <;>
        simp [List.countP_cons, hpa, hpc] <;> omega
    | succ n =>
      simp only [List.getElem?_cons_succ] at h
      have e := ih h
      by_cases hpc : p c <;> by_cases hpa : p a <;> by_cases hpb : p b <;>
        simp_all [List.countP_cons] <;> omega

theorem getElem?_bound {α : Type _} {l : List α} {i : ℕ} {a : α} (h : l[i]? = some a) :
    i < l.length := by
  by_contra hn
  rw [List.getElem?_eq_none (by omega)] at h
  exact Option.noConfusion h

open SandGrid in
theorem countOcc_swap {l : List ℕ} {i i1 t mi : ℕ}
    (h1 : l[i1]? = some t) (h : l[i]? = some mi) :
    countOcc ((l.set i1 mi).set i t) = countOcc l := by
  have e1 := countP_set_sum is_pixel_solid mi h1
  have h2 : (l.set i1 mi)[i]? = some mi := by
    rcases eq_or_ne i1 i with rfl | hne
    · exact List.getElem?_set_eq_of_lt _ (getElem?_bound h1)
    · rw [List.getElem?_set_ne hne]; exact h
  have e2 := countP_set_sum is_pixel_solid t h2
  unfold countOcc
  by_cases hmi : is_pixel_solid mi <;> by_cases ht : is_pixel_solid t <;>
    simp_all <;> omega

/-! ### Specifications of the primitive operations -/

namespace SandGrid

theorem setVelocity_eq_some {g g' : SandGrid} {i : ℕ} {v : ℚ}
    (h : g.setVelocity i v = some g') :
    i < g.velocity.length ∧ g'.width = g.width ∧ g'.height = g.height ∧
    g'.meta = g.meta ∧ g'.color = g.color ∧ g'.velocity = g.velocity.set i v := by
  unfold setVelocity at h
  split at h
  · cases h; exact ⟨by assumption, rfl, rfl, rfl, rfl, rfl⟩
  · exact Option.noConfusion h

theorem set_pixel_eq_some {g g' : SandGrid} {x y r gr b a : ℕ}
    (h : g.set_pixel x y r gr b a = some g') :
    (y * g.width + x) * 4 + 3 < g.color.length ∧ g'.width = g.width ∧ g'.height = g.height ∧
    g'.meta = g.meta ∧ g'.velocity = g.velocity ∧
    g'.color = (((g.color.set ((y * g.width + x) * 4) r).set ((y * g.width + x) * 4 + 1) gr).set
      ((y * g.width + x) * 4 + 2) b).set ((y * g.width + x) * 4 + 3) a := by
  simp only [set_pixel] at h
  split at h
  · cases h; exact ⟨by assumption, rfl, rfl, rfl, rfl, rfl⟩
  · exact Option.noConfusion h

theorem set_pixel_color_length {g g' : SandGrid} {x y r gr b a : ℕ}
    (h : g.set_pixel x y r gr b a = some g') : g'.color.length = g.color.length := by
  rw [(set_pixel_eq_some h).2.2.2.2.2]
  simp

theorem set_pixel_color_outside {g g' : SandGrid} {x y r gr b a bb : ℕ}
    (h : g.set_pixel x y r gr b a = some g')
    (hb : bb < (y * g.width + x) * 4 ∨ (y * g.width + x) * 4 + 3 < bb) :
    g'.color[bb]? = g.color[bb]? := by
  rw [(set_pixel_eq_some h).2.2.2.2.2]
  rw [List.getElem?_set_ne (by omega), List.getElem?_set_ne (by omega),
    List.getElem?_set_ne (by omega), List.getElem?_set_ne (by omega)]

theorem get_pixel_eq_some {g : SandGrid} {x y : ℕ} {p : ℕ × ℕ × ℕ × ℕ}
    (h : g.get_pixel x y = some p) :
    g.color[(y * g.width + x) * 4]? = some p.1 ∧
    g.color[(y * g.width + x) * 4 + 1]? = some p.2.1 ∧
    g.color[(y * g.width + x) * 4 + 2]? = some p.2.2.1 ∧
    g.color[(y * g.width + x) * 4 + 3]? = some p.2.2.2 := by
  unfold get_pixel at h
  simp only [Option.bind_eq_bind, Option.bind_eq_some, Option.some_inj] at h
  obtain ⟨r, hr, gr, hgr, b, hb, a, ha, rfl⟩ := h
  exact ⟨hr, hgr, hb, ha⟩

theorem swap_cell_spec {g g' : SandGrid} {x y x1 y1 : ℕ}
    (h : g.swap_cell x y x1 y1 = some g') :
    ∃ t mi vt vi,
      g.meta[y1 * g.width + x1]? = some t ∧ g.meta[y * g.width + x]? = some mi ∧
      g.velocity[y1 * g.width + x1]? = some vt ∧ g.velocity[y * g.width + x]? = some vi ∧
      g'.width = g.width ∧ g'.height = g.height ∧
      g'.meta = (g.meta.set (y1 * g.width + x1) mi).set (y * g.width + x) t ∧
      g'.velocity = (g.velocity.set (y1 * g.width + x1) vi).set (y * g.width + x) vt ∧
      g'.color.length = g.color.length ∧
      (∀ bb, (bb < (y * g.width + x) * 4 ∨ (y * g.width + x) * 4 + 3 < bb) →
             (bb < (y1 * g.width + x1) * 4 ∨ (y1 * g.width + x1) * 4 + 3 < bb) →
             g'.color[bb]? = g.color[bb]?) := by
  simp only [swap_cell, Option.bind_eq_bind, Option.bind_eq_some, Option.some_inj] at h
  obtain ⟨t, ht, mi, hmi, p, hp, h⟩ := h
  obtain ⟨r, gr, b, a⟩ := p
  simp only [Option.bind_eq_some, Option.some_inj] at h
  obtain ⟨p1, hp1, h⟩ := h
  obtain ⟨r1, gr1, b1, a1⟩ := p1
  simp only [Option.bind_eq_some, Option.some_inj] at h
  obtain ⟨g2, hg2, g3, hg3, v, hv, vi, hvi, rfl⟩ := h
  obtain ⟨_, hw2, hh2, hm2, hv2, _⟩ := set_pixel_eq_some hg2
  obtain ⟨_, hw3, hh3, hm3, hv3, _⟩ := set_pixel_eq_some hg3
  refine ⟨t, mi, v, vi, ht, hmi, ?_, ?_, ?_, ?_, ?_, ?_, ?_, ?_⟩
  · rw [hv3, hv2] at hv; exact hv
  · rw [hv3, hv2] at hvi; exact hvi
  · simpa using hw3.trans hw2
  · simpa using hh3.trans hh2
  · simp only []
    rw [hm3, hm2]
  · simp only []
    rw [hv3, hv2]
  · simpa using (set_pixel_color_length hg3).trans (set_pixel_color_length hg2)
  · intro bb hb hb1
    have e3 : g3.color[bb]? = g2.color[bb]? := by
      refine set_pixel_color_outside hg3 ?_
      rw [hw2]
      simpa using hb
    have e2 : g2.color[bb]? = g.color[bb]? := by
      have e := set_pixel_color_outside hg2 (by simpa using hb1)
      simpa using e
    show g3.color[bb]? = g.color[bb]?
    rw [e3, e2]

theorem stepCell_spec {g g' : SandGrid} {x y : ℕ} {dt : ℚ} {s : List (ℕ × ℕ)}
    (h : g.stepCell x y dt = some (g', s)) :
    (g' = g ∧ s = []) ∨
    ∃ m v, g.meta[y * g.width + x]? = some m ∧ is_pixel_solid m = true ∧
      y ≠ g.height - 1 ∧ g.velocity[y * g.width + x]? = some v ∧
      ∃ gc : SandGrid,
        gc.width = g.width ∧ gc.height = g.height ∧ gc.meta = g.meta ∧
        gc.velocity = g.velocity.set (y * g.width + x) (v + ACCEL * dt) ∧
        gc.color.length = g.color.length ∧
        (∀ bb, (bb < (y * g.width + x) * 4 ∨ (y * g.width + x) * 4 + 3 < bb) →
          gc.color[bb]? = g.color[bb]?) ∧
        ((g' = gc ∧ s = []) ∨
         (1 ≤ v + ACCEL * dt ∧
          ∃ x1 y1 m1, g.meta[y1 * g.width + x1]? = some m1 ∧ is_pixel_solid m1 = false ∧
            gc.swap_cell x y x1 y1 = some g' ∧
            s = [(y * g.width + x, y1 * g.width + x1)])) := by
  simp only [stepCell, Option.bind_eq_bind, Option.bind_eq_some, Option.pure_def,
    Option.some_inj] at h
  obtain ⟨m, hm, h⟩ := h
  by_cases hsolid : is_pixel_solid m
  · rw [if_neg (by simp [hsolid])] at h
    by_cases hfloor : y = g.height - 1
    · rw [if_pos hfloor] at h
      simp only [Option.some_inj, Prod.mk.injEq] at h
      exact Or.inl ⟨h.1.symm, h.2.symm⟩
    · rw [if_neg hfloor] at h
      simp only [Option.bind_eq_bind, Option.bind_eq_some, Option.pure_def,
        Option.some_inj] at h
      obtain ⟨v, hv, gv, hgv, gc, hgc, h⟩ := h
      obtain ⟨hvlen, hwv, hhv, hmv, hcv, hvv⟩ := setVelocity_eq_some hgv
      obtain ⟨hclen, hwc, hhc, hmc, hvc, _⟩ := set_pixel_eq_some hgc
      have hgcw : gc.width = g.width := hwc.trans hwv
      have hgch : gc.height = g.height := hhc.trans hhv
      have hgcm : gc.meta = g.meta := hmc.trans hmv
      have hgcvel : gc.velocity = g.velocity.set (y * g.width + x) (v + ACCEL * dt) := by
        rw [hvc, hvv]
      have hgccl : gc.color.length = g.color.length := by
        have e := set_pixel_color_length hgc
        rw [e, hcv]
      have hgcout : ∀ bb, (bb < (y * g.width + x) * 4 ∨ (y * g.width + x) * 4 + 3 < bb) →
          gc.color[bb]? = g.color[bb]? := by
        intro bb hb
        have e := set_pixel_color_outside hgc (by rw [hwv]; exact hb)
        rw [e, hcv]
      refine Or.inr ⟨m, v, hm, by simpa using hsolid, hfloor, hv,
        gc, hgcw, hgch, hgcm, hgcvel, hgccl, hgcout, ?_⟩
      by_cases hlt : v + ACCEL * dt < 1
      · rw [if_pos hlt] at h
        simp only [Option.some_inj, Prod.mk.injEq] at h
        exact Or.inl ⟨h.1.symm, h.2.symm⟩
      · rw [if_neg hlt] at h
        simp only [Option.bind_eq_bind, Option.bind_eq_some, Option.pure_def,
          Option.some_inj] at h
        obtain ⟨ytc, hytc, mB, hmB, h⟩ := h
        rw [hgcm, hgcw] at hmB
        by_cases hsB : is_pixel_solid mB
        · rw [if_neg (by simp [hsB])] at h
          simp only [Option.bind_eq_bind, Option.bind_eq_some, Option.pure_def,
            Option.some_inj, Prod.mk.injEq] at h
          obtain ⟨xl, hxl, mL, hmL, mR, hmR, h⟩ := h
          rw [hgcm, hgcw] at hmL hmR
          by_cases hsL : is_pixel_solid mL
          · rw [if_neg (by simp [hsL])] at h
            by_cases hsR : is_pixel_solid mR
            · rw [if_neg (by simp [hsR])] at h
              simp only [Option.some_inj, Prod.mk.injEq] at h
              exact Or.inl ⟨h.1.symm, h.2.symm⟩
            · rw [if_pos (by simp [hsR])] at h
              simp only [Option.bind_eq_bind, Option.bind_eq_some, Option.pure_def,
                Option.some_inj, Prod.mk.injEq] at h
              obtain ⟨g2, hg2, hq1, hq2⟩ := h
              subst hq1
              subst hq2
              refine Or.inr ⟨not_lt.mp hlt, x + 1, ytc, mR,
                hmR, by simpa using hsR, hg2, ?_⟩
              rw [hgcw]
          · rw [if_pos (by simp [hsL])] at h
            simp only [Option.bind_eq_bind, Option.bind_eq_some, Option.pure_def,
              Option.some_inj, Prod.mk.injEq] at h
            obtain ⟨g2, hg2, hq1, hq2⟩ := h
            subst hq1
            subst hq2
            refine Or.inr ⟨not_lt.mp hlt, xl, ytc, mL,
              hmL, by simpa using hsL, hg2, ?_⟩
            rw [hgcw]
        · rw [if_pos (by simp [hsB])] at h
          simp only [Option.bind_eq_bind, Option.bind_eq_some, Option.pure_def,
            Option.some_inj, Prod.mk.injEq] at h
          obtain ⟨g2, hg2, hq1, hq2⟩ := h
          subst hq1
          subst hq2
          refine Or.inr ⟨not_lt.mp hlt, x, ytc, mB,
            hmB, by simpa using hsB, hg2, ?_⟩
          rw [hgcw]
  · rw [if_pos (by simp [hsolid])] at h
    simp only [Option.some_inj, Prod.mk.injEq] at h
    exact Or.inl ⟨h.1.symm, h.2.symm⟩

theorem stepCell_preserves {g g' : SandGrid} {x y : ℕ} {dt : ℚ} {s : List (ℕ × ℕ)}
    (h : g.stepCell x y dt = some (g', s)) :
    g'.width = g.width ∧ g'.height = g.height ∧ g'.meta.length = g.meta.length ∧
    g'.velocity.length = g.velocity.length ∧ g'.color.length = g.color.length := by
  rcases stepCell_spec h with ⟨rfl, -⟩ |
    ⟨m, v, hm, hs, hf, hv, gc, hw, hh, hmeta, hvel, hcl, hout, hrest⟩
  · exact ⟨rfl, rfl, rfl, rfl, rfl⟩
  · rcases hrest with ⟨rfl, -⟩ | ⟨hle, x1, y1, m1, hm1, hs1, hsw, hseq⟩
    · exact ⟨hw, hh, by rw [hmeta], by rw [hvel]; simp, hcl⟩
    · obtain ⟨t, mi, vt, vi, ht', hmi', hvt', hvi', hw', hh', hmeta', hvel', hcl', hout'⟩ :=
        swap_cell_spec hsw
      refine ⟨hw'.trans hw, hh'.trans hh, ?_, ?_, hcl'.trans hcl⟩
      · rw [hmeta']; simp [hmeta]
      · rw [hvel']; simp [hvel]

theorem stepCell_countOcc {g g' : SandGrid} {x y : ℕ} {dt : ℚ} {s : List (ℕ × ℕ)}
    (h : g.stepCell x y dt = some (g', s)) :
    countOcc g'.meta = countOcc g.meta := by
  rcases stepCell_spec h with ⟨rfl, -⟩ |
    ⟨m, v, hm, hs, hf, hv, gc, hw, hh, hmeta, hvel, hcl, hout, hrest⟩
  · rfl
  · rcases hrest with ⟨rfl, -⟩ | ⟨hle, x1, y1, m1, hm1, hs1, hsw, hseq⟩
    · rw [hmeta]
    · obtain ⟨t, mi, vt, vi, ht', hmi', _, _, _, _, hmeta', _, _, _⟩ := swap_cell_spec hsw
      rw [hmeta']
      have e := countOcc_swap ht' hmi'
      rw [e, hmeta]

theorem stepCell_swaps {g g' : SandGrid} {x y : ℕ} {dt : ℚ} {s : List (ℕ × ℕ)}
    (h : g.stepCell x y dt = some (g', s)) :
    s = [] ∨ (y ≠ g.height - 1 ∧ ∃ j, s = [(y * g.width + x, j)]) := by
  rcases stepCell_spec h with ⟨-, rfl⟩ |
    ⟨m, v, hm, hs, hf, hv, gc, hw, hh, hmeta, hvel, hcl, hout, hrest⟩
  · exact Or.inl rfl
  · rcases hrest with ⟨-, rfl⟩ | ⟨hle, x1, y1, m1, hm1, hs1, hsw, rfl⟩
    · exact Or.inl rfl
    · exact Or.inr ⟨hf, _, rfl⟩

theorem index_lt_floor {w h y x : ℕ} (hy : y < h) (hf : y ≠ h - 1) (hx : x < w) :
    y * w + x < (h - 1) * w := by
  have hy2 : y + 1 ≤ h - 1 := by omega
  calc y * w + x < y * w + w := by omega
    _ = (y + 1) * w := by ring
    _ ≤ (h - 1) * w := Nat.mul_le_mul_right _ hy2

theorem stepCell_fixed_cell {g g' : SandGrid} {x y i : ℕ} {dt : ℚ} {s : List (ℕ × ℕ)}
    (h : g.stepCell x y dt = some (g', s))
    (hx : x < g.width) (hy : y < g.height)
    (hfloor : (g.height - 1) * g.width ≤ i)
    (hocc : ∃ mi, g.meta[i]? = some mi ∧ is_pixel_solid mi = true) :
    g'.meta[i]? = g.meta[i]? ∧ g'.velocity[i]? = g.velocity[i]? ∧
    (∀ k, k < 4 → g'.color[4 * i + k]? = g.color[4 * i + k]?) := by
  rcases stepCell_spec h with ⟨rfl, -⟩ |
    ⟨m, v, hm, hs, hf, hv, gc, hw, hh, hmeta, hvel, hcl, hout, hrest⟩
  · exact ⟨rfl, rfl, fun _ _ => rfl⟩
  · have hiCur : y * g.width + x < (g.height - 1) * g.width := index_lt_floor hy hf hx
    have hne : y * g.width + x ≠ i := by omega
    rcases hrest with ⟨rfl, -⟩ | ⟨hle, x1, y1, m1, hm1, hs1, hsw, hseq⟩
    · refine ⟨by rw [hmeta], ?_, ?_⟩
      · rw [hvel, List.getElem?_set_ne hne]
      · intro k hk
        exact hout _ (Or.inr (by omega))
    · obtain ⟨t, mi', vt, vi, ht', hmi', hvt', hvi', hw', hh', hmeta', hvel', hcl', hout'⟩ :=
        swap_cell_spec hsw
      have hgcw : gc.width = g.width := hw
      have hdest : y1 * gc.width + x1 ≠ i := by
        intro hdi
        obtain ⟨mo, hmo, hso⟩ := hocc
        rw [hgcw] at hdi
        rw [hdi] at hm1
        rw [hm1] at hmo
        cases hmo
        rw [hso] at hs1
        exact Bool.noConfusion hs1
      have hsrc : y * gc.width + x ≠ i := by rw [hgcw]; exact hne
      refine ⟨?_, ?_, ?_⟩
      · rw [hmeta', List.getElem?_set_ne hsrc, List.getElem?_set_ne hdest, hmeta]
      · rw [hvel', List.getElem?_set_ne hsrc, List.getElem?_set_ne hdest, hvel,
          List.getElem?_set_ne hne]
      · intro k hk
        have e1 : g'.color[4 * i + k]? = gc.color[4 * i + k]? := by
          refine hout' _ ?_ ?_
          · rcases Nat.lt_or_ge i (y * gc.width + x) with hlt | hge
            · exact Or.inl (by omega)
            · have : y * gc.width + x < i := by omega
              exact Or.inr (by omega)
          · rcases Nat.lt_or_ge i (y1 * gc.width + x1) with hlt | hge
            · exact Or.inl (by omega)
            · have : y1 * gc.width + x1 < i := by omega
              exact Or.inr (by omega)
        rw [e1]
        exact hout _ (Or.inr (by omega))

/-- The hypothesis of the amended C1: every occupied non-floor cell is
slower than the displacement threshold `1.0`. -/
def Calm (g : SandGrid) : Prop :=
  ∀ i ∈ List.range ((g.height - 1) * g.width),
    is_pixel_solid (g.meta.getD i 0) = true → g.velocity.getD i 0 < 1

instance (g : SandGrid) : Decidable g.Calm := by unfold Calm; infer_instance

theorem calm_transfer {g1 g2 : SandGrid} (hm : g2.meta = g1.meta)
    (hv : g2.velocity = g1.velocity) (hw : g2.width = g1.width) (hh : g2.height = g1.height)
    (h : g1.Calm) : g2.Calm := by
  unfold Calm at h ⊢
  simp only [hm, hv, hw, hh]
  exact h

theorem stepCell_calm {g g' : SandGrid} {x y : ℕ} {s : List (ℕ × ℕ)}
    (h : g.stepCell x y 0 = some (g', s))
    (hx : x < g.width) (hy : y < g.height) (hcalm : g.Calm) :
    g'.meta = g.meta ∧ g'.velocity = g.velocity ∧ g'.width = g.width ∧
    g'.height = g.height ∧ g'.color.length = g.color.length := by
  rcases stepCell_spec h with ⟨rfl, -⟩ |
    ⟨m, v, hm, hs, hf, hv, gc, hw, hh, hmeta, hvel, hcl, hout, hrest⟩
  · exact ⟨rfl, rfl, rfl, rfl, rfl⟩
  · have hiCur : y * g.width + x < (g.height - 1) * g.width := index_lt_floor hy hf hx
    have hv1 : v < 1 := by
      have hc := hcalm (y * g.width + x) (List.mem_range.mpr hiCur)
      rw [List.getD_eq_getElem?_getD, List.getD_eq_getElem?_getD, hm, hv] at hc
      exact hc (by simpa using hs)
    have hvnext : v + ACCEL * 0 = v := by ring
    rcases hrest with ⟨rfl, -⟩ | ⟨hle, x1, y1, m1, hm1, hs1, hsw, hseq⟩
    · refine ⟨hmeta, ?_, hw, hh, hcl⟩
      rw [hvel, hvnext]
      exact list_set_self hv
    · rw [hvnext] at hle
      exact absurd hle (not_le.mpr hv1)

end SandGrid

/-! ### Facts about the traversal and the whole pass -/

theorem mem_traversal {w h : ℕ} {p : ℕ × ℕ} (hp : p ∈ traversal w h) :
    p.1 < h ∧ p.2 < w := by
  obtain ⟨y, x⟩ := p
  unfold traversal at hp
  rw [List.pair_mem_product] at hp
  exact ⟨by simpa using hp.1, by simpa using hp.2⟩

theorem traversal_nodup_indices (w h : ℕ) :
    ((traversal w h).map (fun p => p.1 * w + p.2)).Nodup := by
  apply List.Nodup.map_on
  · rintro ⟨y1, x1⟩ hp ⟨y2, x2⟩ hq hpq
    have hp' := mem_traversal hp
    have hq' := mem_traversal hq
    simp only at hp' hq' hpq
    have hw : 0 < w := by omega
    have e1 : (y1 * w + x1) / w = y1 := by
      rw [Nat.mul_comm y1 w, Nat.mul_add_div hw, Nat.div_eq_of_lt hp'.2]
      omega
    have e2 : (y2 * w + x2) / w = y2 := by
      rw [Nat.mul_comm y2 w, Nat.mul_add_div hw, Nat.div_eq_of_lt hq'.2]
      omega
    have hy : y1 = y2 := by rw [← e1, ← e2, hpq]
    subst hy
    have hx : x1 = x2 := Nat.add_left_cancel hpq
    rw [hx]
  · exact (List.nodup_reverse.mpr (List.nodup_range h)).product (List.nodup_range w)

open SandGrid in
theorem runCells_preserves {dt : ℚ} : ∀ (ps : List (ℕ × ℕ)) (g0 gf : SandGrid)
    (s0 sf : List (ℕ × ℕ)),
    runCells dt ps (g0, s0) = some (gf, sf) →
    gf.width = g0.width ∧ gf.height = g0.height ∧ gf.meta.length = g0.meta.length ∧
    gf.velocity.length = g0.velocity.length ∧ gf.color.length = g0.color.length ∧
    countOcc gf.meta = countOcc g0.meta
  | [], g0, gf, s0, sf, h => by
    simp only [runCells, Option.some_inj, Prod.mk.injEq] at h
    obtain ⟨rfl, rfl⟩ := h
    exact ⟨rfl, rfl, rfl, rfl, rfl, rfl⟩
  | p :: ps, g0, gf, s0, sf, h => by
    rw [runCells] at h
    cases hst : g0.stepCell p.2 p.1 dt with
    | none => rw [hst] at h; exact Option.noConfusion h
    | some r =>
      obtain ⟨g1, s1⟩ := r
      rw [hst] at h
      have ih := runCells_preserves ps g1 gf (s0 ++ s1) sf h
      have hp := stepCell_preserves hst
      have hc := stepCell_countOcc hst
      exact ⟨ih.1.trans hp.1, ih.2.1.trans hp.2.1, ih.2.2.1.trans hp.2.2.1,
        ih.2.2.2.1.trans hp.2.2.2.1, ih.2.2.2.2.1.trans hp.2.2.2.2, ih.2.2.2.2.2.trans hc⟩

open SandGrid in
theorem runCells_swaps {dt : ℚ} : ∀ (ps : List (ℕ × ℕ)) (g0 gf : SandGrid)
    (s0 sf : List (ℕ × ℕ)),
    runCells dt ps (g0, s0) = some (gf, sf) →
    ∃ tail, sf = s0 ++ tail ∧
      List.Sublist (tail.map Prod.fst) (ps.map (fun p => p.1 * g0.width + p.2))
  | [], g0, gf, s0, sf, h => by
    simp only [runCells, Option.some_inj, Prod.mk.injEq] at h
    exact ⟨[], by simp [h.2.symm], by simp⟩
  | p :: ps, g0, gf, s0, sf, h => by
    rw [runCells] at h
    cases hst : g0.stepCell p.2 p.1 dt with
    | none => rw [hst] at h; exact Option.noConfusion h
    | some r =>
      obtain ⟨g1, s1⟩ := r
      rw [hst] at h
      obtain ⟨tail, htail, hsub⟩ := runCells_swaps ps g1 gf (s0 ++ s1) sf h
      have hw1 : g1.width = g0.width := (stepCell_preserves hst).1
      rw [hw1] at hsub
      refine ⟨s1 ++ tail, by rw [htail, List.append_assoc], ?_⟩
      rw [List.map_append, List.map_cons]
      rcases stepCell_swaps hst with rfl | ⟨hnf, j, rfl⟩
      · simpa using List.Sublist.cons (p.1 * g0.width + p.2) hsub
      · simpa using List.Sublist.cons₂ (p.1 * g0.width + p.2) hsub

open SandGrid in
theorem runCells_sources_bound {dt : ℚ} : ∀ (ps : List (ℕ × ℕ)) (g0 gf : SandGrid)
    (s0 sf : List (ℕ × ℕ)),
    runCells dt ps (g0, s0) = some (gf, sf) →
    (∀ p ∈ ps, p.2 < g0.width ∧ p.1 < g0.height) →
    (∀ q ∈ s0, q.1 < (g0.height - 1) * g0.width) →
    ∀ q ∈ sf, q.1 < (g0.height - 1) * g0.width
  | [], g0, gf, s0, sf, h, hps, hs0 => by
    simp only [runCells, Option.some_inj, Prod.mk.injEq] at h
    rw [← h.2]
    exact hs0
  | p :: ps, g0, gf, s0, sf, h, hps, hs0 => by
    rw [runCells] at h
    cases hst : g0.stepCell p.2 p.1 dt with
    | none => rw [hst] at h; exact Option.noConfusion h
    | some r =>
      obtain ⟨g1, s1⟩ := r
      rw [hst] at h
      have hpre := stepCell_preserves hst
      have hbound : ∀ q ∈ s0 ++ s1, q.1 < (g1.height - 1) * g1.width := by
        rw [hpre.1, hpre.2.1]
        intro q hq
        rcases List.mem_append.mp hq with hq | hq
        · exact hs0 q hq
        · rcases stepCell_swaps hst with rfl | ⟨hnf, j, rfl⟩
          · exact absurd hq (List.not_mem_nil q)
          · have hpb := hps p (List.mem_cons_self p ps)
            rcases List.mem_singleton.mp hq with rfl
            exact index_lt_floor hpb.2 hnf hpb.1
      have hps1 : ∀ q ∈ ps, q.2 < g1.width ∧ q.1 < g1.height := by
        rw [hpre.1, hpre.2.1]
        intro q hq
        exact hps q (List.mem_cons_of_mem _ hq)
      have res := runCells_sources_bound ps g1 gf (s0 ++ s1) sf h hps1 hbound
      rw [hpre.1, hpre.2.1] at res
      exact res

open SandGrid in
theorem runCells_floor {dt : ℚ} : ∀ (ps : List (ℕ × ℕ)) (g0 gf : SandGrid)
    (s0 sf : List (ℕ × ℕ)) (i : ℕ),
    runCells dt ps (g0, s0) = some (gf, sf) →
    (∀ p ∈ ps, p.2 < g0.width ∧ p.1 < g0.height) →
    (g0.height - 1) * g0.width ≤ i →
    (∃ mi, g0.meta[i]? = some mi ∧ is_pixel_solid mi = true) →
    gf.meta[i]? = g0.meta[i]? ∧ gf.velocity[i]? = g0.velocity[i]? ∧
    (∀ k, k < 4 → gf.color[4 * i + k]? = g0.color[4 * i + k]?)
  | [], g0, gf, s0, sf, i, h, hps, hfl, hocc => by
    simp only [runCells, Option.some_inj, Prod.mk.injEq] at h
    rw [← h.1]
    exact ⟨rfl, rfl, fun _ _ => rfl⟩
  | p :: ps, g0, gf, s0, sf, i, h, hps, hfl, hocc => by
    rw [runCells] at h
    cases hst : g0.stepCell p.2 p.1 dt with
    | none => rw [hst] at h; exact Option.noConfusion h
    | some r =>
      obtain ⟨g1, s1⟩ := r
      rw [hst] at h
      have hpb := hps p (List.mem_cons_self p ps)
      have hfix := stepCell_fixed_cell hst hpb.1 hpb.2 hfl hocc
      have hpre := stepCell_preserves hst
      have hps1 : ∀ q ∈ ps, q.2 < g1.width ∧ q.1 < g1.height := by
        rw [hpre.1, hpre.2.1]
        intro q hq
        exact hps q (List.mem_cons_of_mem _ hq)
      have hfl1 : (g1.height - 1) * g1.width ≤ i := by rw [hpre.1, hpre.2.1]; exact hfl
      have hocc1 : ∃ mi, g1.meta[i]? = some mi ∧ is_pixel_solid mi = true := by
        rw [hfix.1]; exact hocc
      have ih := runCells_floor ps g1 gf (s0 ++ s1) sf i h hps1 hfl1 hocc1
      exact ⟨ih.1.trans hfix.1, ih.2.1.trans hfix.2.1,
        fun k hk => (ih.2.2 k hk).trans (hfix.2.2 k hk)⟩

open SandGrid in
theorem runCells_calm : ∀ (ps : List (ℕ × ℕ)) (g0 gf : SandGrid)
    (s0 sf : List (ℕ × ℕ)),
    runCells 0 ps (g0, s0) = some (gf, sf) →
    (∀ p ∈ ps, p.2 < g0.width ∧ p.1 < g0.height) →
    g0.Calm →
    gf.meta = g0.meta ∧ gf.velocity = g0.velocity ∧ gf.width = g0.width ∧
    gf.height = g0.height
  | [], g0, gf, s0, sf, h, hps, hcalm => by
    simp only [runCells, Option.some_inj, Prod.mk.injEq] at h
    rw [← h.1]
    exact ⟨rfl, rfl, rfl, rfl⟩
  | p :: ps, g0, gf, s0, sf, h, hps, hcalm => by
    rw [runCells] at h
    cases hst : g0.stepCell p.2 p.1 0 with
    | none => rw [hst] at h; exact Option.noConfusion h
    | some r =>
      obtain ⟨g1, s1⟩ := r
      rw [hst] at h
      have hpb := hps p (List.mem_cons_self p ps)
      have hc := stepCell_calm hst hpb.1 hpb.2 hcalm
      have hps1 : ∀ q ∈ ps, q.2 < g1.width ∧ q.1 < g1.height := by
        rw [hc.2.2.1, hc.2.2.2.1]
        intro q hq
        exact hps q (List.mem_cons_of_mem _ hq)
      have hcalm1 : g1.Calm := calm_transfer hc.1 hc.2.1 hc.2.2.1 hc.2.2.2.1 hcalm
      have ih := runCells_calm ps g1 gf (s0 ++ s1) sf h hps1 hcalm1
      exact ⟨ih.1.trans hc.1, ih.2.1.trans hc.2.1, ih.2.2.1.trans hc.2.2.1,
        ih.2.2.2.trans hc.2.2.2.1⟩

/-! ### Further helper lemmas -/

theorem rustRound_nonneg {q : ℚ} (h : 0 ≤ q) : 0 ≤ rustRound q := by
  unfold rustRound
  rw [if_neg (not_lt.mpr h)]
  exact Int.le_floor.mpr (by push_cast; linarith)

theorem satU8ofInt_of_nonneg {z : ℤ} (h : 0 ≤ z) : satU8ofInt z = min 255 z.toNat := by
  unfold satU8ofInt
  rw [if_neg (not_lt.mpr h)]

theorem satU8ofInt_le (z : ℤ) : satU8ofInt z ≤ 255 := by
  unfold satU8ofInt
  split
  · omega
  · omega

theorem index_lt_size {w h y x : ℕ} (hy : y < h) (hx : x < w) : y * w + x < w * h := by
  calc y * w + x < (y + 1) * w := by ring_nf; omega
    _ ≤ h * w := Nat.mul_le_mul_right _ (by omega)
    _ = w * h := Nat.mul_comm h w

namespace SandGrid

theorem spawn_eval {g : SandGrid} {x y : ℕ} (hwf : g.WF)
    (hi : y * g.width + x < g.width * g.height) :
    g.spawn_sand_at x y = some
      { width := g.width, height := g.height,
        meta := g.meta.set (y * g.width + x) 1,
        color := (((g.color.set ((y * g.width + x) * 4) 0).set
          ((y * g.width + x) * 4 + 1) 255).set
          ((y * g.width + x) * 4 + 2) 255).set
          ((y * g.width + x) * 4 + 3) 255,
        velocity := g.velocity.set (y * g.width + x) 1 } := by
  obtain ⟨hm, hv, hc⟩ := hwf
  simp only [spawn_sand_at, setVelocity, set_pixel, Option.bind_eq_bind]
  rw [if_pos (by rw [hm]; exact hi)]
  rw [if_pos (by rw [hv]; exact hi)]
  simp only [Option.some_bind]
  rw [if_pos (by rw [hc]; omega)]

theorem spawn_none {g : SandGrid} {x y : ℕ} (hwf : g.WF)
    (hi : g.width * g.height ≤ y * g.width + x) :
    g.spawn_sand_at x y = none := by
  obtain ⟨hm, _, _⟩ := hwf
  simp only [spawn_sand_at, Option.bind_eq_bind]
  rw [if_neg (by rw [hm]; omega)]

end SandGrid

/-! ### Claim C9 -/

open SandGrid in
/-- C9: in `simulate`'s color update the red channel is
`(v'/10.0 * 255.0).round() as u8` with Rust's saturating float-to-`u8`
cast, so for every velocity `v' ≥ 0` the stored red value equals
`min 255 (round (v' * 25.5))` (with `25.5 = 51/2`); it never wraps modulo
256 but saturates at 255 for all velocities above 10. -/
theorem c9_red_channel_saturates (v : ℚ) (hv : 0 ≤ v) :
    red_of_velocity v = min 255 (rustRound (v * (51 / 2))).toNat ∧
    red_of_velocity v ≤ 255 := by
  have harg : v / 10 * 255 = v * (51 / 2) := by ring
  constructor
  · unfold red_of_velocity
    rw [harg]
    exact satU8ofInt_of_nonneg (rustRound_nonneg (by positivity))
  · exact satU8ofInt_le _

open SandGrid in
/-- Witness for C9 at the concrete velocity `20`: the stored red byte is
`min 255 510 = 255`. -/
theorem c9_red_channel_saturates_witness :
    0 ≤ (20 : ℚ) ∧ (red_of_velocity 20 = min 255 (rustRound (20 * (51 / 2))).toNat ∧
      red_of_velocity 20 ≤ 255) ∧ red_of_velocity 20 = 255 :=
  ⟨by norm_num, c9_red_channel_saturates 20 (by norm_num), by decide⟩

/-! ### Claim C8 -/

theorem mul4_bound {i K : ℕ} (h : i < K) : i * 4 + 3 < K * 4 := by omega

namespace SandGrid

/-- C8: for every in-bounds coordinate on a well-formed grid,
`spawn_sand_at` succeeds, sets the cell's occupied flag to the nonzero
value `1` (`is_pixel_solid 1 = true`), its velocity to exactly `1.0` and
its color bytes to RGBA `(0, 255, 255, 255)`, leaves every other cell's
`meta`/`velocity` entries and every color byte outside the cell's four
bytes unchanged, and is idempotent: a second spawn at the same cell
returns the identical grid. -/
theorem c8_spawn_spec {g : SandGrid} {x y : ℕ} (hx : x < g.width) (hy : y < g.height)
    (hwf : g.WF) :
    ∃ g', g.spawn_sand_at x y = some g' ∧
      g'.meta[y * g.width + x]? = some 1 ∧ is_pixel_solid 1 = true ∧
      g'.velocity[y * g.width + x]? = some 1 ∧
      g'.color[(y * g.width + x) * 4]? = some 0 ∧
      g'.color[(y * g.width + x) * 4 + 1]? = some 255 ∧
      g'.color[(y * g.width + x) * 4 + 2]? = some 255 ∧
      g'.color[(y * g.width + x) * 4 + 3]? = some 255 ∧
      (∀ j, j ≠ y * g.width + x → g'.meta[j]? = g.meta[j]? ∧ g'.velocity[j]? = g.velocity[j]?) ∧
      (∀ bb, (bb < (y * g.width + x) * 4 ∨ (y * g.width + x) * 4 + 3 < bb) →
        g'.color[bb]? = g.color[bb]?) ∧
      g'.spawn_sand_at x y = some g' := by
  have hi : y * g.width + x < g.width * g.height := index_lt_size hy hx
  obtain ⟨hm, hv, hc⟩ := hwf
  have hml : y * g.width + x < g.meta.length := by rw [hm]; exact hi
  have hvl : y * g.width + x < g.velocity.length := by rw [hv]; exact hi
  have hcl : (y * g.width + x) * 4 + 3 < g.color.length := by rw [hc]; exact mul4_bound hi
  have hsp := spawn_eval ⟨hm, hv, hc⟩ hi
  have hcol0 : ((((g.color.set ((y * g.width + x) * 4) 0).set
      ((y * g.width + x) * 4 + 1) 255).set
      ((y * g.width + x) * 4 + 2) 255).set
      ((y * g.width + x) * 4 + 3) 255)[(y * g.width + x) * 4]? = some 0 := by
    rw [List.getElem?_set_ne (by omega), List.getElem?_set_ne (by omega),
      List.getElem?_set_ne (by omega)]
    exact List.getElem?_set_eq_of_lt _ (by omega)
  have hcol1 : ((((g.color.set ((y * g.width + x) * 4) 0).set
      ((y * g.width + x) * 4 + 1) 255).set
      ((y * g.width + x) * 4 + 2) 255).set
      ((y * g.width + x) * 4 + 3) 255)[(y * g.width + x) * 4 + 1]? = some 255 := by
    rw [List.getElem?_set_ne (by omega), List.getElem?_set_ne (by omega)]
    exact List.getElem?_set_eq_of_lt _ (by simp; omega)
  have hcol2 : ((((g.color.set ((y * g.width + x) * 4) 0).set
      ((y * g.width + x) * 4 + 1) 255).set
      ((y * g.width + x) * 4 + 2) 255).set
      ((y * g.width + x) * 4 + 3) 255)[(y * g.width + x) * 4 + 2]? = some 255 := by
    rw [List.getElem?_set_ne (by omega)]
    exact List.getElem?_set_eq_of_lt _ (by simp; omega)
  have hcol3 : ((((g.color.set ((y * g.width + x) * 4) 0).set
      ((y * g.width + x) * 4 + 1) 255).set
      ((y * g.width + x) * 4 + 2) 255).set
      ((y * g.width + x) * 4 + 3) 255)[(y * g.width + x) * 4 + 3]? = some 255 :=
    List.getElem?_set_eq_of_lt _ (by simp; omega)
  refine ⟨_, hsp, ?_, rfl, ?_, hcol0, hcol1, hcol2, hcol3, ?_, ?_, ?_⟩
  · exact List.getElem?_set_eq_of_lt _ hml
  · exact List.getElem?_set_eq_of_lt _ hvl
  · intro j hj
    exact ⟨List.getElem?_set_ne (fun e => hj e.symm),
      List.getElem?_set_ne (fun e => hj e.symm)⟩
  · intro bb hb
    rw [List.getElem?_set_ne (by omega), List.getElem?_set_ne (by omega),
      List.getElem?_set_ne (by omega), List.getElem?_set_ne (by omega)]
  · -- idempotence
    have h2 := @spawn_eval
      { width := g.width, height := g.height,
        meta := g.meta.set (y * g.width + x) 1,
        color := (((g.color.set ((y * g.width + x) * 4) 0).set
          ((y * g.width + x) * 4 + 1) 255).set
          ((y * g.width + x) * 4 + 2) 255).set
          ((y * g.width + x) * 4 + 3) 255,
        velocity := g.velocity.set (y * g.width + x) 1 } x y
      ⟨by simpa using hm, by simpa using hv, by simpa using hc⟩ (by simpa using hi)
    rw [h2]
    simp only [List.set_set]
    rw [list_set_self hcol0, list_set_self hcol1, list_set_self hcol2, list_set_self hcol3]

end SandGrid

/-! ### Claim C1 -/

/-- The 1×2 grid with a single freshly spawned cell at `(0, 0)`
(velocity seeded to `1.0`), reached through the public API. -/
def c1Grid : SandGrid := ((SandGrid.new 1 2).spawn_sand_at 0 0).getD default

/-- The state of `c1Grid` after `advance(0.0)`. -/
def c1GridAfter : SandGrid := (c1Grid.simulate 0).getD default

/-- C1 (counterexample): on a 1×2 grid, a freshly spawned cell at `(0, 0)`
has velocity exactly `1.0`; since the displacement threshold is the strict
test `v' < 1.0`, `advance(0.0)` is *not* a no-op: the cell falls one row
(occupancy moves from index 0 to index 1), so it does not remain at its
spawn coordinate and its occupied flag changes. -/
theorem c1_counterexample :
    (SandGrid.new 1 2).spawn_sand_at 0 0 = some c1Grid ∧
    c1Grid.meta = [1, 0] ∧ c1Grid.velocity = [1, 0] ∧
    c1Grid.simulate 0 = some c1GridAfter ∧
    c1GridAfter.meta = [0, 1] ∧
    c1GridAfter ≠ c1Grid := by decide

open SandGrid in
/-- C1 (amended): `advance(0.0)` leaves the occupancy array and the
velocity array unchanged provided every occupied non-floor cell has
velocity strictly below the threshold `1.0` (`Calm`); a freshly spawned
cell has velocity exactly `1.0`, which already meets the `v' >= 1`
displacement condition, so it is not covered and can move (and even for
calm cells the color buffer is rewritten). -/
theorem c1_advance_zero_amended {g g' : SandGrid} (hcalm : g.Calm)
    (h : g.simulate 0 = some g') :
    g'.meta = g.meta ∧ g'.velocity = g.velocity := by
  unfold simulate simulateAux at h
  cases hr : runCells 0 (traversal g.width g.height) (g, []) with
  | none => rw [hr] at h; exact Option.noConfusion h
  | some r =>
    rw [hr] at h
    obtain ⟨gf, sf⟩ := r
    have hps : ∀ p ∈ traversal g.width g.height, p.2 < g.width ∧ p.1 < g.height := by
      intro p hp
      have hb := mem_traversal hp
      exact ⟨hb.2, hb.1⟩
    have res := runCells_calm _ _ _ _ _ hr hps hcalm
    have hg : gf = g' := by simpa using h
    rw [← hg]
    exact ⟨res.1, res.2.1⟩

/-- A calm 1×2 grid: one occupied non-floor cell with velocity `1/2`. -/
def c1CalmGrid : SandGrid :=
  { width := 1, height := 2, meta := [1, 0], color := new_texture 1 2, velocity := [1/2, 0] }

/-- The state of `c1CalmGrid` after `advance(0.0)`. -/
def c1CalmGridAfter : SandGrid := (c1CalmGrid.simulate 0).getD default

/-- Witness for the amended C1 at a concrete calm grid. -/
theorem c1_advance_zero_amended_witness :
    c1CalmGrid.Calm ∧ c1CalmGrid.simulate 0 = some c1CalmGridAfter ∧
    (c1CalmGridAfter.meta = c1CalmGrid.meta ∧
     c1CalmGridAfter.velocity = c1CalmGrid.velocity) :=
  ⟨by decide, by decide, c1_advance_zero_amended (by decide) (by decide)⟩

/-! ### Claim C2 -/

/-- The 2×2 grid with particles at `(1, 0)` and `(1, 1)`, reached through
the public API. -/
def c2Grid : SandGrid :=
  ((((SandGrid.new 2 2).spawn_sand_at 1 0).getD default).spawn_sand_at 1 1).getD default

/-- C2 (code bug): on the API-reachable, well-formed 2×2 grid with the
right-edge column occupied, `advance(1.0)` panics: the mover at
`(1, 0)` finds its straight-down destination `(1, 1)` occupied and the
collision resolution then reads the diagonal-right neighbour at flat
index `1*2 + (1+1) = 4`, one past the end of the 4-element `meta`
array — an out-of-bounds access (`none` in this embedding), so `advance`
does raise an error, contrary to the claim. -/
theorem c2_edge_out_of_bounds :
    (((SandGrid.new 2 2).spawn_sand_at 1 0).getD default).spawn_sand_at 1 1 = some c2Grid ∧
    c2Grid.WF ∧ c2Grid.meta = [0, 1, 0, 1] ∧
    c2Grid.simulate 1 = none := by decide

/-- Witness for C8 at `(0, 1)` on the freshly created 2×2 grid,
including the idempotence conclusion. -/
theorem c8_spawn_spec_witness :
    0 < (SandGrid.new 2 2).width ∧ 1 < (SandGrid.new 2 2).height ∧ (SandGrid.new 2 2).WF ∧
    ∃ g', (SandGrid.new 2 2).spawn_sand_at 0 1 = some g' ∧
      g'.spawn_sand_at 0 1 = some g' :=
  ⟨by decide, by decide, by decide, by
    obtain ⟨g', h1, _, _, _, _, _, _, _, _, _, h2⟩ :=
      @SandGrid.c8_spawn_spec (SandGrid.new 2 2) 0 1 (by decide) (by decide) (by decide)
    exact ⟨g', h1, h2⟩⟩

/-! ### Claim C10 -/

namespace SandGrid

/-- C10: `spawn_sand_at` performs no bounds check on its coordinates: on a
well-formed grid, for every `(x, y)` with `x ≥ width`, as long as the flat
index `y*width + x` is below `width*height` the call succeeds and produces
exactly the grid obtained by spawning at the aliased in-bounds coordinate
`((y*width+x) % width, (y*width+x) / width)`; it fails (out-of-bounds
panic, `none` here) exactly when the flat index reaches `width*height`. -/
theorem c10_spawn_aliasing {g : SandGrid} {x y : ℕ} (hwf : g.WF) (hx : g.width ≤ x) :
    (y * g.width + x < g.width * g.height →
      (g.spawn_sand_at x y).isSome = true ∧
      g.spawn_sand_at x y =
        g.spawn_sand_at ((y * g.width + x) % g.width) ((y * g.width + x) / g.width)) ∧
    (g.width * g.height ≤ y * g.width + x → g.spawn_sand_at x y = none) := by
  constructor
  · intro hi
    have hw0 : 0 < g.width := by
      rcases Nat.eq_zero_or_pos g.width with h0 | h0
      · rw [h0] at hi
        omega
      · exact h0
    have halias : ((y * g.width + x) / g.width) * g.width + (y * g.width + x) % g.width
        = y * g.width + x := by
      rw [Nat.mul_comm]
      exact Nat.div_add_mod _ _
    have h1 := spawn_eval hwf hi
    have h2 := spawn_eval hwf (x := (y * g.width + x) % g.width)
      (y := (y * g.width + x) / g.width) (by rw [halias]; exact hi)
    rw [halias] at h2
    constructor
    · rw [h1]
      rfl
    · rw [h1, h2]
  · intro hi
    exact spawn_none hwf hi

end SandGrid

/-- Witness grid for C10: a well-formed 3×2 grid. -/
def c10Grid : SandGrid := SandGrid.new 3 2

/-- Witness for C10: on the 3×2 grid, `spawn(4, 0)` (x = 4 ≥ width = 3,
flat index 4 < 6) succeeds and aliases `spawn(1, 1)`; `spawn(4, 1)`
(flat index 7 ≥ 6) panics. -/
theorem c10_spawn_aliasing_witness :
    c10Grid.WF ∧ c10Grid.width ≤ 4 ∧
    (0 * c10Grid.width + 4 < c10Grid.width * c10Grid.height ∧
      (c10Grid.spawn_sand_at 4 0).isSome = true ∧
      c10Grid.spawn_sand_at 4 0 =
        c10Grid.spawn_sand_at ((0 * c10Grid.width + 4) % c10Grid.width)
          ((0 * c10Grid.width + 4) / c10Grid.width)) ∧
    (c10Grid.width * c10Grid.height ≤ 1 * c10Grid.width + 4 ∧
      c10Grid.spawn_sand_at 4 1 = none) :=
  ⟨by decide, by decide,
    ⟨by decide, (SandGrid.c10_spawn_aliasing (by decide) (by decide)).1 (by decide)⟩,
    ⟨by decide, (SandGrid.c10_spawn_aliasing (by decide) (by decide)).2 (by decide)⟩⟩

/-! ### Claim C3 -/

open SandGrid in
/-- C3: for every grid state and every `dt ≥ 0`, an `advance(dt)` call that
completes preserves the total count of occupied cells exactly: `simulate`
only relocates particles via swaps. -/
theorem c3_occupancy_conserved {g g' : SandGrid} {dt : ℚ} (hdt : 0 ≤ dt)
    (h : g.simulate dt = some g') :
    countOcc g'.meta = countOcc g.meta := by
  unfold simulate simulateAux at h
  cases hr : runCells dt (traversal g.width g.height) (g, []) with
  | none => rw [hr] at h; exact Option.noConfusion h
  | some r =>
    rw [hr] at h
    obtain ⟨gf, sf⟩ := r
    have res := runCells_preserves _ _ _ _ _ hr
    have hg : gf = g' := by simpa using h
    rw [← hg]
    exact res.2.2.2.2.2

open SandGrid in
/-- Witness for C3 at the concrete 1×2 spawned grid and `dt = 0`: the
step moves the particle but the occupancy count stays 1. -/
theorem c3_occupancy_conserved_witness :
    0 ≤ (0 : ℚ) ∧ c1Grid.simulate 0 = some c1GridAfter ∧
    countOcc c1GridAfter.meta = countOcc c1Grid.meta ∧
    countOcc c1Grid.meta = 1 :=
  ⟨le_refl 0, by decide, c3_occupancy_conserved (le_refl 0) (by decide), by decide⟩

/-! ### Claim C5 -/

/-- The 1×6 grid with particles at `(0, 0)` and `(0, 2)`, reached through
the public API. -/
def c5Grid : SandGrid :=
  ((((SandGrid.new 1 6).spawn_sand_at 0 0).getD default).spawn_sand_at 0 2).getD default

/-- The state of `c5Grid` after `advance(0.1)`. -/
def c5GridAfter : SandGrid := (c5Grid.simulate (1/10)).getD default

/-- C5 (counterexample): on the 1×6 column with particles at rows 0 and 2,
`advance(0.1)` performs the swaps `(2, 4)` (the row-2 particle falls to
row 4, vacating index 2) and then `(0, 2)` (the row-0 particle falls into
the just-vacated index 2): index 2 participates in *two* `swap_cell`
invocations in a single pass, so the flattened list of swap endpoints has
a duplicate. -/
theorem c5_counterexample :
    (c5Grid.simulateAux (1/10)).map Prod.snd = some [(2, 4), (0, 2)] ∧
    ¬ (([(2, 4), (0, 2)] : List (ℕ × ℕ)).flatMap (fun q => [q.1, q.2])).Nodup := by
  constructor
  · decide
  · decide

open SandGrid in
/-- C5 (amended): within a single completed `advance(dt)` call, no cell
index is the *source* of more than one swap — the sources of the recorded
swap list are pairwise distinct, because the bottom-to-top traversal
visits each cell once and a swap's source is always the visited cell.  An
index may, however, additionally appear as the *destination* of another
swap (see the counterexample). -/
theorem c5_sources_nodup {g gf : SandGrid} {dt : ℚ} {sw : List (ℕ × ℕ)} (hdt : 0 ≤ dt)
    (h : g.simulateAux dt = some (gf, sw)) :
    (sw.map Prod.fst).Nodup := by
  unfold simulateAux at h
  obtain ⟨tail, htail, hsub⟩ := runCells_swaps _ _ _ _ _ h
  rw [htail]
  simpa using hsub.nodup (traversal_nodup_indices g.width g.height)

open SandGrid in
/-- Witness for the amended C5 at the concrete 1×6 two-particle grid:
the two swap sources `2` and `0` are distinct. -/
theorem c5_sources_nodup_witness :
    0 ≤ (1/10 : ℚ) ∧ c5Grid.simulateAux (1/10) = some (c5GridAfter, [(2, 4), (0, 2)]) ∧
    (([(2, 4), (0, 2)] : List (ℕ × ℕ)).map Prod.fst).Nodup :=
  ⟨by norm_num, by decide,
    @c5_sources_nodup c5Grid c5GridAfter (1/10) [(2, 4), (0, 2)] (by norm_num) (by decide)⟩

/-! ### Claim C6 -/

open SandGrid in
/-- C6: a completed `advance(dt)` never reduces the occupancy of the
bottom row: every occupied floor-row cell (flat index `≥ (height-1)*width`)
keeps its `meta` entry, its velocity and all four of its color bytes
(same particle, untouched), and no swap's source lies in the floor row
(floor cells are never the source of a move). -/
theorem c6_floor_invariant {g gf : SandGrid} {dt : ℚ} {sw : List (ℕ × ℕ)} (hdt : 0 ≤ dt)
    (h : g.simulateAux dt = some (gf, sw)) :
    (∀ i mi, (g.height - 1) * g.width ≤ i → g.meta[i]? = some mi →
      is_pixel_solid mi = true →
      gf.meta[i]? = g.meta[i]? ∧ gf.velocity[i]? = g.velocity[i]? ∧
      (∀ k, k < 4 → gf.color[4 * i + k]? = g.color[4 * i + k]?)) ∧
    (∀ q ∈ sw, q.1 < (g.height - 1) * g.width) := by
  unfold simulateAux at h
  have hps : ∀ p ∈ traversal g.width g.height, p.2 < g.width ∧ p.1 < g.height := by
    intro p hp
    have hb := mem_traversal hp
    exact ⟨hb.2, hb.1⟩
  constructor
  · intro i mi hfl hmi hsol
    exact runCells_floor _ _ _ _ _ i h hps hfl ⟨mi, hmi, hsol⟩
  · exact runCells_sources_bound _ _ _ _ _ h hps (by simp)

/-- A 1×2 grid with an occupied floor cell at `(0, 1)`, reached through
the public API. -/
def c6Grid : SandGrid := ((SandGrid.new 1 2).spawn_sand_at 0 1).getD default

/-- The state of `c6Grid` after `advance(1.0)` together with its swap list. -/
def c6GridAfter : SandGrid := ((c6Grid.simulateAux 1).getD default).1

/-- Witness for C6: on the 1×2 grid whose floor cell `(0, 1)` (flat index
1) is occupied, `advance(1.0)` completes with no swaps and leaves the
floor cell's `meta` entry, velocity and color bytes unchanged. -/
theorem c6_floor_invariant_witness :
    0 ≤ (1 : ℚ) ∧ c6Grid.simulateAux 1 = some (c6GridAfter, []) ∧
    (1 * 1 ≤ 1 ∧ c6Grid.meta[1]? = some 1 ∧ SandSim.is_pixel_solid 1 = true) ∧
    (c6GridAfter.meta[1]? = c6Grid.meta[1]? ∧
     c6GridAfter.velocity[1]? = c6Grid.velocity[1]? ∧
     (∀ k, k < 4 → c6GridAfter.color[4 * 1 + k]? = c6Grid.color[4 * 1 + k]?)) :=
  ⟨by norm_num, by decide, ⟨by decide, by decide, by decide⟩,
    (@c6_floor_invariant c6Grid c6GridAfter 1 [] (by norm_num) (by decide)).1 1 1
      (by decide) (by decide) (by decide)⟩

/-! ### Claim C4 -/

set_option maxRecDepth 100000

namespace SandGrid

theorem advanceN_fixed {g : SandGrid} (hfix : g.simulate 1 = some g) :
    ∀ n, g.advanceN n = some g
  | 0 => rfl
  | n + 1 => by
    rw [advanceN, hfix, Option.some_bind]
    exact advanceN_fixed hfix n

end SandGrid

/-- The 10×10 grid with a single particle spawned at `(5, 0)`. -/
def c4Grid0 : SandGrid := ((SandGrid.new 10 10).spawn_sand_at 5 0).getD default

/-- `c4Grid0` after one `advance(1.0)`: the particle is at `(5, 8)`. -/
def c4Grid1 : SandGrid := (c4Grid0.simulate 1).getD default

/-- `c4Grid0` after two `advance(1.0)` calls: the particle rests on the
floor at `(5, 9)`. -/
def c4Grid2 : SandGrid := (c4Grid1.simulate 1).getD default

/-- C4 (counterexample): in the 10×10 scenario with `spawn(5, 0)`, after
the first `advance(1.0)` the particle's velocity is
`1.0 + 9.81 = 10.81`, not `9.81` — no cell holds velocity `9.81` — and
after reaching the floor the velocity does *not* keep accumulating:
the third step leaves the grid completely unchanged. -/
theorem c4_counterexample :
    (SandGrid.new 10 10).spawn_sand_at 5 0 = some c4Grid0 ∧
    c4Grid0.simulate 1 = some c4Grid1 ∧
    c4Grid1.velocity[85]? = some (1081/100) ∧
    ((1081/100 : ℚ) = 981/100 → False) ∧
    (((981/100 : ℚ) ∈ c4Grid1.velocity) → False) ∧
    c4Grid2.simulate 1 = some c4Grid2 := by
  refine ⟨by decide, by decide, by decide, by decide, by decide, by decide⟩

open SandGrid in
/-- C4 (amended): in the 10×10 scenario with `spawn(5, 0)` and repeated
`advance(1.0)`: the velocity takes the values `10.81, 20.62` (the spawn
seed `1.0` plus `9.81` per step while airborne); the particle falls on the
first step — to row 8, because the collision scan stops one row short of
the floor and the particle then swaps straight down to row 8 — reaches
the floor row 9 on the second step, and for every `n ≥ 2` the state after
`n` steps equals the state after 2 steps: floor cells are skipped, so the
resting particle stays at `(5, 9)` with its velocity frozen at `20.62`,
not accumulating. -/
theorem c4_scenario_amended :
    c4Grid0.meta[5]? = some 1 ∧ c4Grid0.velocity[5]? = some 1 ∧
    c4Grid0.simulate 1 = some c4Grid1 ∧
    c4Grid1.meta[85]? = some 1 ∧ c4Grid1.meta[5]? = some 0 ∧
    c4Grid1.velocity[85]? = some (1081/100) ∧
    c4Grid1.simulate 1 = some c4Grid2 ∧
    c4Grid2.meta[95]? = some 1 ∧ c4Grid2.meta[85]? = some 0 ∧
    c4Grid2.velocity[95]? = some (1031/50) ∧
    SandSim.SandGrid.countOcc c4Grid2.meta = 1 ∧
    (∀ n, 2 ≤ n → c4Grid0.advanceN n = some c4Grid2) := by
  refine ⟨by decide, by decide, by decide, by decide, by decide, by decide, by decide,
    by decide, by decide, by decide, by decide, ?_⟩
  have h1 : c4Grid0.simulate 1 = some c4Grid1 := by decide
  have h2 : c4Grid1.simulate 1 = some c4Grid2 := by decide
  have hfix : c4Grid2.simulate 1 = some c4Grid2 := by decide
  intro n hn
  obtain ⟨m, rfl⟩ : ∃ m, n = m + 2 := ⟨n - 2, by omega⟩
  rw [show m + 2 = (m + 1) + 1 from rfl, advanceN, h1, Option.some_bind, advanceN, h2,
    Option.some_bind]
  exact advanceN_fixed hfix m

/-- Witness for the amended C4 at `n = 5`. -/
theorem c4_scenario_amended_witness :
    2 ≤ 5 ∧ c4Grid0.advanceN 5 = some c4Grid2 :=
  ⟨by norm_num, c4_scenario_amended.2.2.2.2.2.2.2.2.2.2.2 5 (by norm_num)⟩

/-! ### Claim C7 -/

/-- The 4×3 grid with a fully occupied floor row and two horizontally
adjacent movers at `(1, 1)` and `(2, 1)`, reached through the public API. -/
def c7Grid : SandGrid :=
  ([(0, 2), (1, 2), (2, 2), (3, 2), (1, 1), (2, 1)] : List (ℕ × ℕ)).foldl
    (fun g p => (g.spawn_sand_at p.1 p.2).getD default) (SandGrid.new 4 3)

/-- The state of `c7Grid` after `advance(0.01)`. -/
def c7GridAfter : SandGrid := (c7Grid.simulate (1/100)).getD default

/-- The intermediate grid of the `(1, 1)` mover's step after the velocity
write. -/
def c7gv : SandGrid :=
  (c7Grid.setVelocity 5 (1 + SandGrid.ACCEL * (1/100))).getD default

/-- The intermediate grid of the `(1, 1)` mover's step after the velocity
and color writes. -/
def c7gc : SandGrid :=
  (c7gv.set_pixel 1 1 (SandGrid.red_of_velocity (1 + SandGrid.ACCEL * (1/100))) 0 0 255).getD
    default

open SandGrid in
/-- C7: when a moving cell's straight-down destination `(x, ytc)` is
occupied, collision resolution reads the down-left neighbour
`(x-1, ytc)` and the down-right neighbour `(x+1, ytc)` and swaps into the
left one if it is empty (left has tie-break priority), otherwise into the
right one if that is empty, and otherwise performs no swap, leaving the
particle in place with only its velocity/color updated (the grid `gc`).
Concretely, two horizontally adjacent occupied cells falling onto a fully
occupied row, with both diagonal destinations also occupied, remain
exactly in place after `advance(0.01)` (no swap at all) while their
velocities still accumulate to `1 + 9.81/100 = 1.0981`. -/
theorem c7_left_priority_and_settling :
    (∀ (g gv gc : SandGrid) (x y : ℕ) (dt : ℚ) (m : ℕ) (v : ℚ) (ytc mB mL mR : ℕ),
      g.meta[y * g.width + x]? = some m → is_pixel_solid m = true →
      y ≠ g.height - 1 →
      g.velocity[y * g.width + x]? = some v →
      g.setVelocity (y * g.width + x) (v + ACCEL * dt) = some gv →
      gv.set_pixel x y (red_of_velocity (v + ACCEL * dt)) 0 0 255 = some gc →
      ¬ (v + ACCEL * dt < 1) →
      gc.find_collision x (y + 1) (y + 1)
        (min (y + satUsize (rustRound (v + ACCEL * dt))) (gc.height - 1) - y) = some ytc →
      gc.meta[ytc * gc.width + x]? = some mB → is_pixel_solid mB = true →
      1 ≤ x →
      gc.meta[ytc * gc.width + (x - 1)]? = some mL →
      gc.meta[ytc * gc.width + (x + 1)]? = some mR →
      ((is_pixel_solid mL = false →
          g.stepCell x y dt = (gc.swap_cell x y (x - 1) ytc).map
            (fun g2 => (g2, [(y * g.width + x, ytc * gc.width + (x - 1))]))) ∧
       (is_pixel_solid mL = true → is_pixel_solid mR = false →
          g.stepCell x y dt = (gc.swap_cell x y (x + 1) ytc).map
            (fun g2 => (g2, [(y * g.width + x, ytc * gc.width + (x + 1))]))) ∧
       (is_pixel_solid mL = true → is_pixel_solid mR = true →
          g.stepCell x y dt = some (gc, [])))) ∧
    (c7Grid.simulate (1/100) = some c7GridAfter ∧
     c7GridAfter.meta = c7Grid.meta ∧
     (c7Grid.simulateAux (1/100)).map Prod.snd = some [] ∧
     c7GridAfter.velocity[5]? = some (10981/10000) ∧
     c7GridAfter.velocity[6]? = some (10981/10000)) := by
  constructor
  · intro g gv gc x y dt m v ytc mB mL mR hm hsm hf hv hgv hgc hlt hfc hmB hsB hx1 hmL hmR
    have hcp : checkedPred x = some (x - 1) := by
      unfold checkedPred
      rw [if_neg (by omega)]
    have hbase : g.stepCell x y dt =
        (if (! is_pixel_solid mL) = true then
          (gc.swap_cell x y (x - 1) ytc).bind
            (fun g2 => some (g2, [(y * g.width + x, ytc * gc.width + (x - 1))]))
         else if (! is_pixel_solid mR) = true then
          (gc.swap_cell x y (x + 1) ytc).bind
            (fun g2 => some (g2, [(y * g.width + x, ytc * gc.width + (x + 1))]))
         else some (gc, [])) := by
      simp only [stepCell, Option.bind_eq_bind]
      rw [hm]
      simp only [Option.some_bind]
      rw [if_neg (by simp [hsm]), if_neg hf, hv]
      simp only [Option.some_bind]
      rw [hgv]
      simp only [Option.some_bind]
      rw [hgc]
      simp only [Option.some_bind]
      rw [if_neg hlt, hfc]
      simp only [Option.some_bind]
      rw [hmB]
      simp only [Option.some_bind]
      rw [if_neg (by simp [hsB]), hcp]
      simp only [Option.some_bind]
      rw [hmL]
      simp only [Option.some_bind]
      rw [hmR]
      simp only [Option.some_bind, Option.pure_def]
    refine ⟨?_, ?_, ?_⟩
    · intro hL
      rw [hbase, if_pos (by simp [hL])]
      cases gc.swap_cell x y (x - 1) ytc <;> rfl
    · intro hL hR
      rw [hbase, if_neg (by simp [hL]), if_pos (by simp [hR])]
      cases gc.swap_cell x y (x + 1) ytc <;> rfl
    · intro hL hR
      rw [hbase, if_neg (by simp [hL]), if_neg (by simp [hR])]
  · exact ⟨by decide, by decide, by decide, by decide, by decide⟩

open SandGrid in
/-- Witness for C7 at the concrete settling scenario: the `(1, 1)` mover
(flat index 5) with both diagonals occupied performs no swap and its
step returns the velocity/color-updated grid unchanged in `meta`. -/
theorem c7_left_priority_and_settling_witness :
    (1 ≤ 1 ∧ is_pixel_solid 1 = true ∧ ¬ ((1 : ℚ) + ACCEL * (1/100) < 1)) ∧
    c7Grid.stepCell 1 1 (1/100) = some (c7gc, []) :=
  ⟨⟨le_refl 1, by decide, by decide⟩,
    (c7_left_priority_and_settling.1 c7Grid c7gv c7gc 1 1 (1/100) 1 1 2 1 1 1
      (by decide) (by decide) (by decide) (by decide) (by decide) (by decide)
      (by decide) (by decide) (by decide) (by decide) (by decide) (by decide)
      (by decide)).2.2 (by decide) (by decide)⟩

end SandSim
